import Mathlib

/-!
Shallow embedding of `analyze_transfers.py`, a post-hoc analysis utility for a
peer-to-peer backup simulation.  Python floats are modelled as `ℚ`, node
identifiers and transfer types as `String`, the numpy container (`.npz` file)
as a structure of optional named series, and fallible Python execution
(uncaught exceptions) as `Option`.
-/

namespace AnalyzeTransfers

/-- One completed transfer: `[time, transfer_type, duration, uploader, downloader]`
as reconstructed by `process_data`. -/
structure Transfer where
  time : ℚ
  ttype : String
  duration : ℚ
  uploader : String
  downloader : String
deriving DecidableEq, Repr

/-- The five required scalar metadata fields. -/
structure Metadata where
  parallel_enabled : Bool
  total_nodes : ℕ
  simulation_end_time : ℚ
  data_loss_events : ℕ
  nodes_with_data_loss : ℕ
deriving DecidableEq, Repr

/-- The parsed `.npz` container: a flat collection of named arrays, each
possibly absent (`none` models a missing key; reading it raises `KeyError`).
Scalar 1-element metadata arrays are modelled post-coercion. -/
structure Npz where
  metadata_parallel_enabled : Option Bool := none
  metadata_total_nodes : Option ℕ := none
  metadata_simulation_end_time : Option ℚ := none
  metadata_data_loss_events : Option ℕ := none
  metadata_nodes_with_data_loss : Option ℕ := none
  transfer_times : Option (List ℚ) := none
  transfer_types : Option (List String) := none
  transfer_durations : Option (List ℚ) := none
  uploaders : Option (List String) := none
  downloaders : Option (List String) := none
  sim_times : Option (List ℚ) := none
  sim_uploads : Option (List ℚ) := none
  sim_downloads : Option (List ℚ) := none
  bw_times : Option (List ℚ) := none
  bw_upload_used : Option (List ℚ) := none
  bw_upload_capacity : Option (List ℚ) := none
  bw_download_used : Option (List ℚ) := none
  bw_download_capacity : Option (List ℚ) := none
deriving DecidableEq, Repr

/-- The in-memory record produced by `process_data`; `raw_data` keeps the
original container for on-demand access to the large series. -/
structure Record where
  metadata : Metadata
  transfer_completions : List Transfer
  raw_data : Npz
deriving DecidableEq, Repr

/-! ### Per-node counting (`analyze_transfers_by_node`)

A Python `defaultdict(int)` is modelled as an association list from node id to
count, in key-insertion order. -/

/-- Association-list model of `defaultdict(int)`. -/
abbrev CountMap := List (String × ℕ)

/-- Reading `m[k]` on a `defaultdict(int)`: unseen keys read as `0`. -/
def lookup0 (m : CountMap) (k : String) : ℕ :=
  match m with
  | [] => 0
  | (k', v) :: rest => if k' = k then v else lookup0 rest k

/-- Incrementing `m[k] += 1` on a `defaultdict(int)`: a fresh key is appended with count 1. -/
def bump (m : CountMap) (k : String) : CountMap :=
  match m with
  | [] => [(k, 1)]
  | (k', v) :: rest => if k' = k then (k', v + 1) :: rest else (k', v) :: bump rest k

/-- Python `m.keys()`. -/
def keys (m : CountMap) : List String := m.map Prod.fst

/-- Source `analyze_transfers_by_node`: one pass over `transfer_completions`,
incrementing the uploader's upload count and the downloader's download
count for each transfer. -/
def analyze_transfers_by_node (transfers : List Transfer) : CountMap × CountMap :=
  transfers.foldl
    (fun acc t => (bump acc.1 t.uploader, bump acc.2 t.downloader))
    ([], [])

/-! ### Python string ordering and `sorted`

Python compares strings lexicographically by code point; we implement that
comparison executably on the underlying `Char` lists (it agrees with
Mathlib's `String` order, see `strLe_iff` below) and model `sorted` as an
insertion sort. -/

/-- Lexicographic `≤` on code-point lists. -/
def charListLe : List Char → List Char → Bool
  | [], _ => true
  | _ :: _, [] => false
  | a :: as, b :: bs =>
    if a < b then true
    else if a = b then charListLe as bs
    else false

/-- Lexicographic `≤` on strings, as Python compares them. -/
def strLe (a b : String) : Bool := charListLe a.data b.data

/-- Insert a string into a (sorted) list, keeping order. -/
def insertSorted (x : String) : List String → List String
  | [] => [x]
  | y :: ys => if strLe x y then x :: y :: ys else y :: insertSorted x ys

/-- Python's `sorted` on a list of strings (insertion sort). -/
def sortStrings : List String → List String
  | [] => []
  | x :: xs => insertSorted x (sortStrings xs)

/-- Source `nodes = sorted(set(list(upload_counts.keys()) + list(download_counts.keys())))`
(line 192 of the source): duplicate-free union of the two key lists, sorted
lexically on the id strings. -/
def sortedNodes (transfers : List Transfer) : List String :=
  let uc := (analyze_transfers_by_node transfers).1
  let dc := (analyze_transfers_by_node transfers).2
  sortStrings ((keys uc ++ keys dc).dedup)

/-- Source `uploads = [upload_counts[node] for node in nodes]`. -/
def uploadsOf (transfers : List Transfer) : List ℕ :=
  (sortedNodes transfers).map (lookup0 (analyze_transfers_by_node transfers).1)

/-- Source `downloads = [download_counts[node] for node in nodes]`. -/
def downloadsOf (transfers : List Transfer) : List ℕ :=
  (sortedNodes transfers).map (lookup0 (analyze_transfers_by_node transfers).2)

/-! ### Down-sampling and numpy-style array operations -/

/-- Python extended slice `a[::k]` for a step `k ≥ 1`: the elements at indices
`0, k, 2k, …`.  The countdown argument of `everyKthAux` is the number of
elements still to skip before the next one is taken. -/
def everyKthAux {α : Type} (k : ℕ) : List α → ℕ → List α
  | [], _ => []
  | x :: rest, 0 => x :: everyKthAux k rest (k - 1)
  | _ :: rest, n + 1 => everyKthAux k rest n

/-- Python `a[::k]`. -/
def everyKth {α : Type} (l : List α) (k : ℕ) : List α := everyKthAux k l 0

/-- Source `sample_step = max(1, length // target)` (lines 147, 217, 233). -/
def sample_step (length target : ℕ) : ℕ := max 1 (length / target)

/-- Elementwise `+` of two numpy arrays; broadcasting two 1-d arrays of
different lengths raises, modelled as `none`. -/
def npAdd (a b : List ℚ) : Option (List ℚ) :=
  if a.length = b.length then some (List.zipWith (· + ·) a b) else none

/-- Elementwise `/` of two numpy arrays (same length discipline). -/
def npDiv (a b : List ℚ) : Option (List ℚ) :=
  if a.length = b.length then some (List.zipWith (· / ·) a b) else none

/-- Numpy `np.maximum(a, c)` with a scalar `c`. -/
def npMaximum (a : List ℚ) (c : ℚ) : List ℚ := a.map (fun x => max x c)

/-- Numpy `np.max` of an array (the guards in the source only apply it when the
array is non-empty). -/
def npMax (l : List ℚ) : ℚ :=
  match l with
  | [] => 0
  | x :: xs => xs.foldl max x

/-- Numpy `np.mean`. -/
def npMean (l : List ℚ) : ℚ := l.sum / (l.length : ℚ)

/-- Python `int(...)` on a float: truncation toward zero. -/
def pyInt (q : ℚ) : ℤ := if 0 ≤ q then ⌊q⌋ else ⌈q⌉

/-! ### Derived scalars (lines 118, 210-211) -/

/-- Source `sim_time_years = simulation_end_time / (365.25 * 24 * 3600)` (line 118);
the float literal `365.25` denotes exactly the rational `36525 / 100`
(see `simTimeYears_eq`). -/
def simTimeYears (simulation_end_time : ℚ) : ℚ :=
  simulation_end_time / (36525 / 100 * 24 * 3600)

/-- Source `avg_transfers_per_node = total_transfers / total_nodes if total_nodes > 0 else 0`
(line 210). -/
def avgTransfersPerNode (total_transfers total_nodes : ℕ) : ℚ :=
  if total_nodes > 0 then (total_transfers : ℚ) / (total_nodes : ℚ) else 0

/-- Source `transfers_per_year = total_transfers / sim_time_years if sim_time_years > 0 else 0`
(line 211). -/
def transfersPerYear (total_transfers : ℕ) (sim_time_years : ℚ) : ℚ :=
  if sim_time_years > 0 then (total_transfers : ℚ) / sim_time_years else 0

/-! ### The renderer (`create_analysis_plot`)

The produced figure is modelled by the data drawn into it; string formatting
of titles is abstracted to the values being formatted.  A Python exception
escaping the renderer is modelled as `none`. -/

/-- Data drawn into panel 1 (`none` when `transfer_completions` is empty and
the whole panel-1 block is skipped). -/
structure Panel1Data where
  times : List ℚ
  cumulative : List ℕ
  overlay : Option (List ℚ × List ℚ)
  titleMaxConcurrent : Option ℚ
deriving DecidableEq, Repr

/-- The concurrency overlay of panel 1 (lines 146-180): drawn only in parallel
mode when `sim_times` is present and non-empty; the three series are
down-sampled with stride target 2000 and the title also reports the maximum
concurrent value.  Outer `none` models a raised exception (missing or
misaligned `sim_uploads`/`sim_downloads`). -/
def overlayOf (is_parallel : Bool) (raw : Npz) : Option (Option ((List ℚ × List ℚ) × ℚ)) :=
  if is_parallel then
    match raw.sim_times with
    | some st =>
      if st.length > 0 then
        match raw.sim_uploads, raw.sim_downloads with
        | some su, some sd =>
          let step := sample_step st.length 2000
          let stD := (everyKth st step).map (fun t => t / (24 * 3600))
          match npAdd (everyKth su step) (everyKth sd step) with
          | some tc =>
            some (some ((stD, tc), if tc.length > 0 then npMax tc else 0))
          | none => none
        | _, _ => none
      else some none
    | none => some none
  else some none

/-- Panel 1 (lines 131-188): skipped entirely when `transfer_completions` is
empty; otherwise the cumulative curve (times in days, running count `1..N`)
plus the optional concurrency overlay. -/
def panel1Of (is_parallel : Bool) (transfers : List Transfer) (raw : Npz) :
    Option (Option Panel1Data) :=
  if transfers.isEmpty then some none
  else
    let times := transfers.map (fun t => t.time / (24 * 3600))
    let cumulative := List.range' 1 times.length
    match overlayOf is_parallel raw with
    | some ov => some (some ⟨times, cumulative, ov.map Prod.fst, ov.map Prod.snd⟩)
    | none => none

/-- Bandwidth utilization statistics (lines 213-228): both averages default to
0; when `bw_times` is present and non-empty the four bandwidth arrays are
down-sampled (stride target 1000) and each average is
`mean(used / np.maximum(capacity, 1)) * 100`. -/
def bwStatsOf (raw : Npz) : Option (ℚ × ℚ) :=
  match raw.bw_times with
  | some bt =>
    if bt.length > 0 then
      match raw.bw_upload_used, raw.bw_upload_capacity,
            raw.bw_download_used, raw.bw_download_capacity with
      | some buu, some buc, some bdu, some bdc =>
        let step := sample_step bt.length 1000
        match npDiv (everyKth buu step) (npMaximum (everyKth buc step) 1),
              npDiv (everyKth bdu step) (npMaximum (everyKth bdc step) 1) with
        | some upRatios, some downRatios =>
          some (npMean upRatios * 100, npMean downRatios * 100)
        | _, _ => none
      | _, _, _, _ => none
    else some (0, 0)
  | none => some (0, 0)

/-- Concurrent-transfer statistics for the summary panel (lines 230-244):
present only in parallel mode with a non-empty `sim_times`; down-sampled with
stride target 1000. -/
def concurrentStatsOf (is_parallel : Bool) (raw : Npz) : Option (Option (ℤ × ℚ)) :=
  if is_parallel then
    match raw.sim_times with
    | some st =>
      if st.length > 0 then
        match raw.sim_uploads, raw.sim_downloads with
        | some su, some sd =>
          let step := sample_step st.length 1000
          match npAdd (everyKth su step) (everyKth sd step) with
          | some cd =>
            some (some (if cd.length > 0 then pyInt (npMax cd) else 0,
                        if cd.length > 0 then npMean cd else 0))
          | none => none
        | _, _ => none
      else some none
    | none => some none
  else some none

/-- The data content of the rendered three-panel figure. -/
structure Figure where
  suptitleMode : String
  years : ℚ
  panel1 : Option Panel1Data
  nodes : List String
  uploads : List ℕ
  downloads : List ℕ
  totalTransfers : ℕ
  totalNodes : ℕ
  avgPerNode : ℚ
  perYear : ℚ
  dataLossEvents : ℕ
  concurrent : Option (ℤ × ℚ)
  avgUploadUtil : ℚ
  avgDownloadUtil : ℚ
deriving DecidableEq, Repr

/-- Source `create_analysis_plot` (lines 112-271). -/
def create_analysis_plot (data : Record) : Option Figure :=
  let transfers := data.transfer_completions
  let total_transfers := transfers.length
  let total_nodes := data.metadata.total_nodes
  let sim_time_years := simTimeYears data.metadata.simulation_end_time
  let raw := data.raw_data
  let is_parallel := data.metadata.parallel_enabled
  let mode_name := if is_parallel then "Parallel" else "Single"
  match panel1Of is_parallel transfers raw, bwStatsOf raw,
        concurrentStatsOf is_parallel raw with
  | some p1, some bw, some cs =>
    some
      { suptitleMode := mode_name
        years := sim_time_years
        panel1 := p1
        nodes := sortedNodes transfers
        uploads := uploadsOf transfers
        downloads := downloadsOf transfers
        totalTransfers := total_transfers
        totalNodes := total_nodes
        avgPerNode := avgTransfersPerNode total_transfers total_nodes
        perYear := transfersPerYear total_transfers sim_time_years
        dataLossEvents := data.metadata.data_loss_events
        concurrent := cs
        avgUploadUtil := bw.1
        avgDownloadUtil := bw.2 }
  | _, _, _ => none

/-- Source `plot_single_mode_analysis` (lines 274-276). -/
def plot_single_mode_analysis (data : Record) : Option Figure :=
  create_analysis_plot data

/-- Source `plot_parallel_mode_analysis` (lines 279-281). -/
def plot_parallel_mode_analysis (data : Record) : Option Figure :=
  create_analysis_plot data

/-! ### The loader (`load_metrics`, `process_data`) -/

/-- Index a possibly-absent series: a missing key raises `KeyError`, an index
past the end raises `IndexError`; both are modelled as `none`. -/
def getEntry {β : Type} (o : Option (List β)) (i : ℕ) : Option β :=
  match o with
  | none => none
  | some l => l[i]?

/-- The reconstruction loop of `process_data` (lines 74-83): for each index of
`transfer_times`, read all five series at that index. -/
def buildTransfers (data : Npz) (times : List ℚ) : Option (List Transfer) :=
  (List.range times.length).mapM (fun i =>
    match times[i]?, getEntry data.transfer_types i, getEntry data.transfer_durations i,
          getEntry data.uploaders i, getEntry data.downloaders i with
    | some t, some ty, some d, some u, some dn => some (⟨t, ty, d, u, dn⟩ : Transfer)
    | _, _, _, _, _ => none)

/-- Source `process_data` (lines 54-93): reads the five required metadata entries,
reconstructs `transfer_completions` when `transfer_times` is present (empty
otherwise), and keeps the container as `raw_data`.  `none` models an
exception (missing required key, or a missing/short transfer series while a
non-empty `transfer_times` is present). -/
def process_data (data : Npz) : Option Record :=
  match data.metadata_parallel_enabled, data.metadata_total_nodes,
        data.metadata_simulation_end_time, data.metadata_data_loss_events,
        data.metadata_nodes_with_data_loss with
  | some pe, some tn, some st, some dle, some nwl =>
    let completions : Option (List Transfer) :=
      match data.transfer_times with
      | none => some []
      | some times => buildTransfers data times
    match completions with
    | some cs => some ⟨⟨pe, tn, st, dle, nwl⟩, cs, data⟩
    | none => none
  | _, _, _, _, _ => none

/-- Python's `str.endswith`, executably: the suffix's characters close the
string's character list. -/
def strEndsWith (s suffix : String) : Bool :=
  decide (suffix.data.length ≤ s.data.length) &&
    s.data.drop (s.data.length - suffix.data.length) == suffix.data

/-- A file system: maps a path to the parsed container when a loadable file
exists there. -/
def FileSystem : Type := String → Option Npz

/-- The two terminal failure kinds of one invocation. -/
inductive LoadErr where
  | notFound
  | unexpected
deriving DecidableEq, Repr

/-- Source `load_metrics` (lines 33-51): try the filename as given; on
`FileNotFoundError` retry with `".npz"` appended unless already present; if
that also fails, report not-found (`sys.exit(1)`).  Any other exception from
`process_data` propagates (`unexpected`). -/
def load_metrics (fs : FileSystem) (filename : String) : Except LoadErr Record :=
  match fs filename with
  | some data =>
    match process_data data with
    | some r => Except.ok r
    | none => Except.error LoadErr.unexpected
  | none =>
    let filename2 := if strEndsWith filename ".npz" then filename else filename ++ ".npz"
    match fs filename2 with
    | some data =>
      match process_data data with
      | some r => Except.ok r
      | none => Except.error LoadErr.unexpected
    | none => Except.error LoadErr.notFound

/-- The observable outcome of `main` (lines 309-342) after argument parsing:
the process exit status and the image file written by `savefig`, if any.
Every failure path exits with status 1 and writes nothing. -/
def mainRun (fs : FileSystem) (filename plot_name : String) : ℕ × Option (String × Figure) :=
  match load_metrics fs filename with
  | Except.error _ => (1, none)
  | Except.ok data =>
    match (if data.metadata.parallel_enabled then plot_parallel_mode_analysis data
           else plot_single_mode_analysis data) with
    | some fig => (0, some (plot_name, fig))
    | none => (1, none)

/-- A record with the `parallel_enabled` flag replaced. -/
def setParallel (r : Record) (b : Bool) : Record :=
  { r with metadata := { r.metadata with parallel_enabled := b } }

/-- The mode-independent content of a figure: everything except the
super-title mode text, the concurrency overlay (and its title maximum), and
the concurrent-transfer statistics line. -/
def modeIndependentView (f : Figure) :
    Option (List ℚ × List ℕ) × List String × List ℕ × List ℕ × ℕ × ℕ × ℚ × ℚ × ℚ × ℕ × ℚ × ℚ :=
  (f.panel1.map (fun p => (p.times, p.cumulative)), f.nodes, f.uploads, f.downloads,
   f.totalTransfers, f.totalNodes, f.years, f.avgPerNode, f.perYear,
   f.dataLossEvents, f.avgUploadUtil, f.avgDownloadUtil)

/-- A two-transfer record used as a concrete instance. -/
def exTransfersC3 : List Transfer :=
  [⟨86400, "x", 1, "A", "B"⟩, ⟨172800, "y", 2, "B", "A"⟩]

/-- The panel-1 data drawn for `exTransfersC3` with no overlay. -/
def exPanelC3 : Panel1Data :=
  ⟨[(86400 : ℚ) / (24 * 3600), (172800 : ℚ) / (24 * 3600)], [1, 2], none, none⟩

-- scratch checks (to be removed)
example :
    sortedNodes
      [⟨0, "x", 0, "A", "B"⟩, ⟨1, "x", 0, "B", "A"⟩, ⟨2, "x", 0, "A", "C"⟩] =
      ["A", "B", "C"] := by decide

example :
    lookup0 (analyze_transfers_by_node
      [⟨0, "x", 0, "A", "B"⟩, ⟨1, "x", 0, "B", "A"⟩, ⟨2, "x", 0, "A", "C"⟩]).1 "A" = 2 := by
  decide

/-! ### The executable string comparison agrees with Mathlib's `String` order -/

theorem charListLe_iff : ∀ as bs : List Char,
    charListLe as bs = true ↔ ¬ List.Lex (· < ·) bs as
  | [], bs => by simp [charListLe, List.Lex.not_nil_right]
  | a :: as, [] => by
    simp only [charListLe, Bool.false_eq_true, false_iff, not_not]
    exact List.Lex.nil
  | a :: as, b :: bs => by
    simp only [charListLe]
    rcases lt_trichotomy a b with h | h | h
    · simp only [if_pos h, true_iff]
      intro hlex
      cases hlex with
      | cons _ => exact absurd h (lt_irrefl _)
      | rel h' => exact absurd h (lt_asymm h')
    · subst h
      simp only [if_neg (lt_irrefl a), if_pos rfl]
      rw [List.Lex.cons_iff]
      exact charListLe_iff as bs
    · simp only [if_neg (lt_asymm h), if_neg (ne_of_gt h), Bool.false_eq_true, false_iff, not_not]
      exact List.Lex.rel h

/-- The comparison `strLe` is Mathlib's lexicographic `≤` on `String`. -/
theorem strLe_iff (a b : String) : strLe a b = true ↔ a ≤ b := by
  rw [String.le_iff_toList_le, ← not_lt]
  exact charListLe_iff a.data b.data

theorem strLe_total (a b : String) : strLe a b = true ∨ strLe b a = true := by
  rcases le_total a b with h | h
  · exact Or.inl ((strLe_iff a b).mpr h)
  · exact Or.inr ((strLe_iff b a).mpr h)

/-! ### `sortStrings` sorts -/

theorem perm_insertSorted (x : String) (l : List String) :
    (insertSorted x l).Perm (x :: l) := by
  induction l with
  | nil => rfl
  | cons y ys ih =>
    simp only [insertSorted]
    split
    · rfl
    · exact (ih.cons y).trans (List.Perm.swap x y ys)

theorem perm_sortStrings (l : List String) : (sortStrings l).Perm l := by
  induction l with
  | nil => rfl
  | cons x xs ih => exact (perm_insertSorted x (sortStrings xs)).trans (ih.cons x)

theorem mem_sortStrings {a : String} {l : List String} : a ∈ sortStrings l ↔ a ∈ l :=
  (perm_sortStrings l).mem_iff

theorem nodup_sortStrings {l : List String} (h : l.Nodup) : (sortStrings l).Nodup :=
  ((perm_sortStrings l).nodup_iff).mpr h

theorem sorted_insertSorted {x : String} {l : List String}
    (h : List.Sorted (· ≤ ·) l) : List.Sorted (· ≤ ·) (insertSorted x l) := by
  induction l with
  | nil => simp [insertSorted]
  | cons y ys ih =>
    rw [List.sorted_cons] at h
    simp only [insertSorted]
    split
    · rename_i hxy
      rw [List.sorted_cons]
      refine ⟨?_, List.sorted_cons.mpr h⟩
      intro b hb
      rcases List.mem_cons.mp hb with rfl | hb
      · exact (strLe_iff x b).mp hxy
      · exact le_trans ((strLe_iff x y).mp hxy) (h.1 b hb)
    · rename_i hxy
      have hyx : y ≤ x := by
        rcases strLe_total x y with h' | h'
        · exact absurd h' hxy
        · exact (strLe_iff y x).mp h'
      rw [List.sorted_cons]
      refine ⟨?_, ih h.2⟩
      intro b hb
      rcases List.mem_cons.mp ((perm_insertSorted x ys).mem_iff.mp hb) with rfl | hb
      · exact hyx
      · exact h.1 b hb

theorem sorted_sortStrings (l : List String) : List.Sorted (· ≤ ·) (sortStrings l) := by
  induction l with
  | nil => simp [sortStrings]
  | cons x xs ih => exact sorted_insertSorted ih

/-! ### `defaultdict` counting lemmas -/

theorem lookup0_bump (m : CountMap) (k x : String) :
    lookup0 (bump m k) x = lookup0 m x + (if k = x then 1 else 0) := by
  induction m with
  | nil =>
    simp only [bump, lookup0]
    split <;> simp
  | cons p rest ih =>
    obtain ⟨k', v⟩ := p
    simp only [bump]
    by_cases hk : k' = k
    · subst hk
      simp only [if_pos rfl, lookup0]
      split <;> rename_i hx
      · simp [hx]
      · simp [hx]
    · simp only [if_neg hk, lookup0]
      split <;> rename_i hx
      · subst hx
        have : k ≠ k' := fun h => hk h.symm
        simp [this]
      · exact ih

theorem mem_keys_bump (m : CountMap) (k x : String) :
    x ∈ keys (bump m k) ↔ x ∈ keys m ∨ x = k := by
  induction m with
  | nil => simp [bump, keys, eq_comm]
  | cons p rest ih =>
    obtain ⟨k', v⟩ := p
    simp only [bump]
    by_cases hk : k' = k
    · subst hk
      simp [keys, eq_comm]
      tauto
    · simp only [if_neg hk, keys, List.map_cons, List.mem_cons]
      rw [show (List.map Prod.fst (bump rest k)) = keys (bump rest k) from rfl, ih]
      tauto

theorem lookup0_analyze_fst (ts : List Transfer) : ∀ (m n : CountMap) (x : String),
    lookup0 ((ts.foldl (fun acc t => (bump acc.1 t.uploader, bump acc.2 t.downloader)) (m, n)).1) x
      = lookup0 m x + (ts.filter (fun t => t.uploader == x)).length := by
  induction ts with
  | nil => intro m n x; simp
  | cons t ts ih =>
    intro m n x
    simp only [List.foldl_cons, List.filter_cons]
    rw [ih (bump m t.uploader) (bump n t.downloader) x, lookup0_bump]
    by_cases hx : t.uploader = x
    · simp [hx]; omega
    · simp [hx]

theorem lookup0_analyze_snd (ts : List Transfer) : ∀ (m n : CountMap) (x : String),
    lookup0 ((ts.foldl (fun acc t => (bump acc.1 t.uploader, bump acc.2 t.downloader)) (m, n)).2) x
      = lookup0 n x + (ts.filter (fun t => t.downloader == x)).length := by
  induction ts with
  | nil => intro m n x; simp
  | cons t ts ih =>
    intro m n x
    simp only [List.foldl_cons, List.filter_cons]
    rw [ih (bump m t.uploader) (bump n t.downloader) x, lookup0_bump]
    by_cases hx : t.downloader = x
    · simp [hx]; omega
    · simp [hx]

theorem mem_keys_analyze_fst (ts : List Transfer) : ∀ (m n : CountMap) (x : String),
    (x ∈ keys ((ts.foldl (fun acc t => (bump acc.1 t.uploader, bump acc.2 t.downloader)) (m, n)).1)
      ↔ x ∈ keys m ∨ ∃ t ∈ ts, t.uploader = x) := by
  induction ts with
  | nil => intro m n x; simp
  | cons t ts ih =>
    intro m n x
    simp only [List.foldl_cons, List.mem_cons]
    rw [ih (bump m t.uploader) (bump n t.downloader) x, mem_keys_bump]
    constructor
    · rintro ((h | h) | ⟨u, hu, h⟩)
      · exact Or.inl h
      · exact Or.inr ⟨t, Or.inl rfl, h.symm⟩
      · exact Or.inr ⟨u, Or.inr hu, h⟩
    · rintro (h | ⟨u, rfl | hu, h⟩)
      · exact Or.inl (Or.inl h)
      · exact Or.inl (Or.inr h.symm)
      · exact Or.inr ⟨u, hu, h⟩

theorem mem_keys_analyze_snd (ts : List Transfer) : ∀ (m n : CountMap) (x : String),
    (x ∈ keys ((ts.foldl (fun acc t => (bump acc.1 t.uploader, bump acc.2 t.downloader)) (m, n)).2)
      ↔ x ∈ keys n ∨ ∃ t ∈ ts, t.downloader = x) := by
  induction ts with
  | nil => intro m n x; simp
  | cons t ts ih =>
    intro m n x
    simp only [List.foldl_cons, List.mem_cons]
    rw [ih (bump m t.uploader) (bump n t.downloader) x, mem_keys_bump]
    constructor
    · rintro ((h | h) | ⟨u, hu, h⟩)
      · exact Or.inl h
      · exact Or.inr ⟨t, Or.inl rfl, h.symm⟩
      · exact Or.inr ⟨u, Or.inr hu, h⟩
    · rintro (h | ⟨u, rfl | hu, h⟩)
      · exact Or.inl (Or.inl h)
      · exact Or.inl (Or.inr h.symm)
      · exact Or.inr ⟨u, hu, h⟩

theorem lookup0_uploads (ts : List Transfer) (x : String) :
    lookup0 (analyze_transfers_by_node ts).1 x
      = (ts.filter (fun t => t.uploader == x)).length := by
  have h := lookup0_analyze_fst ts [] [] x
  simpa [analyze_transfers_by_node, lookup0] using h

theorem lookup0_downloads (ts : List Transfer) (x : String) :
    lookup0 (analyze_transfers_by_node ts).2 x
      = (ts.filter (fun t => t.downloader == x)).length := by
  have h := lookup0_analyze_snd ts [] [] x
  simpa [analyze_transfers_by_node, lookup0] using h

theorem mem_sortedNodes (ts : List Transfer) (x : String) :
    x ∈ sortedNodes ts ↔ ∃ t ∈ ts, t.uploader = x ∨ t.downloader = x := by
  have hu : x ∈ keys (analyze_transfers_by_node ts).1 ↔ ∃ t ∈ ts, t.uploader = x := by
    have h := mem_keys_analyze_fst ts [] [] x
    simpa [analyze_transfers_by_node, keys] using h
  have hd : x ∈ keys (analyze_transfers_by_node ts).2 ↔ ∃ t ∈ ts, t.downloader = x := by
    have h := mem_keys_analyze_snd ts [] [] x
    simpa [analyze_transfers_by_node, keys] using h
  have hsplit : x ∈ sortedNodes ts ↔
      x ∈ keys (analyze_transfers_by_node ts).1 ∨ x ∈ keys (analyze_transfers_by_node ts).2 := by
    simp only [sortedNodes, mem_sortStrings, List.mem_dedup, List.mem_append]
  rw [hsplit, hu, hd]
  constructor
  · rintro (⟨t, ht, h⟩ | ⟨t, ht, h⟩)
    · exact ⟨t, ht, Or.inl h⟩
    · exact ⟨t, ht, Or.inr h⟩
  · rintro ⟨t, ht, h | h⟩
    · exact Or.inl ⟨t, ht, h⟩
    · exact Or.inr ⟨t, ht, h⟩

/-- C1: the per-node aggregation produces the lexically sorted, duplicate-free
union of all node ids appearing as uploader or downloader; each node's upload
(resp. download) count is the number of transfers listing it as uploader
(resp. downloader), unseen ids reading as zero; the upload/download arrays are
aligned to the sorted node order; and on the record with transfers
`[(t0,"x",d0,"A","B"), (t1,"x",d1,"B","A"), (t2,"x",d2,"A","C")]` the upload
counts are `{A:2, B:1}`, the download counts are `{B:1, A:1, C:1}`, and the
sorted node list is `[A,B,C]`. -/
theorem analyze_transfers_by_node_spec :
    (∀ ts : List Transfer,
      List.Sorted (· ≤ ·) (sortedNodes ts) ∧
      (sortedNodes ts).Nodup ∧
      (∀ x, x ∈ sortedNodes ts ↔ ∃ t ∈ ts, t.uploader = x ∨ t.downloader = x) ∧
      (∀ x, lookup0 (analyze_transfers_by_node ts).1 x
          = (ts.filter (fun t => t.uploader == x)).length) ∧
      (∀ x, lookup0 (analyze_transfers_by_node ts).2 x
          = (ts.filter (fun t => t.downloader == x)).length) ∧
      uploadsOf ts = (sortedNodes ts).map (lookup0 (analyze_transfers_by_node ts).1) ∧
      downloadsOf ts = (sortedNodes ts).map (lookup0 (analyze_transfers_by_node ts).2)) ∧
    (∀ t0 t1 t2 d0 d1 d2 : ℚ,
      sortedNodes [⟨t0, "x", d0, "A", "B"⟩, ⟨t1, "x", d1, "B", "A"⟩, ⟨t2, "x", d2, "A", "C"⟩]
          = ["A", "B", "C"] ∧
      (analyze_transfers_by_node
          [⟨t0, "x", d0, "A", "B"⟩, ⟨t1, "x", d1, "B", "A"⟩, ⟨t2, "x", d2, "A", "C"⟩]).1
          = [("A", 2), ("B", 1)] ∧
      (analyze_transfers_by_node
          [⟨t0, "x", d0, "A", "B"⟩, ⟨t1, "x", d1, "B", "A"⟩, ⟨t2, "x", d2, "A", "C"⟩]).2
          = [("B", 1), ("A", 1), ("C", 1)] ∧
      uploadsOf [⟨t0, "x", d0, "A", "B"⟩, ⟨t1, "x", d1, "B", "A"⟩, ⟨t2, "x", d2, "A", "C"⟩]
          = [2, 1, 0] ∧
      downloadsOf [⟨t0, "x", d0, "A", "B"⟩, ⟨t1, "x", d1, "B", "A"⟩, ⟨t2, "x", d2, "A", "C"⟩]
          = [1, 1, 1]) := by
  constructor
  · intro ts
    refine ⟨sorted_sortStrings _, nodup_sortStrings (List.nodup_dedup _),
      mem_sortedNodes ts, lookup0_uploads ts, lookup0_downloads ts, rfl, rfl⟩
  · intro t0 t1 t2 d0 d1 d2
    exact ⟨rfl, rfl, rfl, rfl, rfl⟩

/-! ### C10: counts sum to the number of transfers -/

theorem sum_indicator_of_nodup {u : String} : ∀ {ns : List String}, ns.Nodup → u ∈ ns →
    (ns.map (fun x => if u = x then 1 else 0)).sum = 1 := by
  intro ns
  induction ns with
  | nil => intro _ h; cases h
  | cons y ys ih =>
    intro hnd hm
    rw [List.nodup_cons] at hnd
    rcases List.mem_cons.mp hm with rfl | hm
    · have : (ys.map (fun x => if u = x then 1 else 0)).sum = 0 := by
        rw [List.sum_eq_zero]
        intro n hn
        rcases List.mem_map.mp hn with ⟨z, hz, hzn⟩
        have : u ≠ z := fun h => hnd.1 (h ▸ hz)
        simp [this] at hzn
        omega
      simp [this]
    · have huy : u ≠ y := fun h => hnd.1 (h ▸ hm)
      simp only [List.map_cons, List.sum_cons, if_neg huy, ih hnd.2 hm, Nat.zero_add]

theorem sum_counts_eq_length (f : Transfer → String) :
    ∀ (ts : List Transfer) (ns : List String), ns.Nodup → (∀ t ∈ ts, f t ∈ ns) →
    (ns.map (fun x => (ts.filter (fun t => f t == x)).length)).sum = ts.length := by
  intro ts
  induction ts with
  | nil => intro ns _ _; simp
  | cons t ts ih =>
    intro ns hnd hmem
    have step : ∀ x, ((t :: ts).filter (fun s => f s == x)).length
        = (if f t = x then 1 else 0) + (ts.filter (fun s => f s == x)).length := by
      intro x
      rw [List.filter_cons]
      by_cases h : f t = x
      · simp [h]
        omega
      · simp [h]
    calc (ns.map (fun x => ((t :: ts).filter (fun s => f s == x)).length)).sum
        = (ns.map (fun x => (if f t = x then 1 else 0)
            + (ts.filter (fun s => f s == x)).length)).sum := by
          congr 1
          exact List.map_congr_left (fun x _ => step x)
      _ = (ns.map (fun x => if f t = x then 1 else 0)).sum
            + (ns.map (fun x => (ts.filter (fun s => f s == x)).length)).sum := by
          rw [← List.sum_map_add]
      _ = 1 + ts.length := by
          rw [sum_indicator_of_nodup hnd (hmem t (List.mem_cons_self _ _)),
            ih ns hnd (fun s hs => hmem s (List.mem_cons_of_mem _ hs))]
      _ = (t :: ts).length := by simp [Nat.add_comm]

/-- C10: the per-node upload counts over the sorted node list sum to the number
of transfer completions, and so do the per-node download counts. -/
theorem counts_sum_to_total (ts : List Transfer) :
    (uploadsOf ts).sum = ts.length ∧ (downloadsOf ts).sum = ts.length := by
  constructor
  · have h : uploadsOf ts
        = (sortedNodes ts).map (fun x => (ts.filter (fun t => t.uploader == x)).length) := by
      unfold uploadsOf
      exact List.map_congr_left (fun x _ => lookup0_uploads ts x)
    rw [h]
    refine sum_counts_eq_length Transfer.uploader ts (sortedNodes ts)
      (nodup_sortStrings (List.nodup_dedup _)) ?_
    intro t ht
    exact (mem_sortedNodes ts t.uploader).mpr ⟨t, ht, Or.inl rfl⟩
  · have h : downloadsOf ts
        = (sortedNodes ts).map (fun x => (ts.filter (fun t => t.downloader == x)).length) := by
      unfold downloadsOf
      exact List.map_congr_left (fun x _ => lookup0_downloads ts x)
    rw [h]
    refine sum_counts_eq_length Transfer.downloader ts (sortedNodes ts)
      (nodup_sortStrings (List.nodup_dedup _)) ?_
    intro t ht
    exact (mem_sortedNodes ts t.downloader).mpr ⟨t, ht, Or.inr rfl⟩
/-! ### C4: guarded derived scalars -/

/-- C4: computing the derived scalars is total: with `total_nodes = 0` or
`simulation_end_time = 0` the transfers-per-node and transfers-per-year rates
evaluate to 0, and with positive denominators they are the exact quotients
`total_transfers / total_nodes` and `total_transfers / years`, where
`years = simulation_end_time / (365.25 * 24 * 3600)`. -/
theorem derived_scalars_spec (total_transfers total_nodes : ℕ) (simulation_end_time : ℚ) :
    simTimeYears simulation_end_time = simulation_end_time / (365.25 * 24 * 3600) ∧
    (total_nodes = 0 → avgTransfersPerNode total_transfers total_nodes = 0) ∧
    (simulation_end_time = 0 →
      transfersPerYear total_transfers (simTimeYears simulation_end_time) = 0) ∧
    (0 < total_nodes →
      avgTransfersPerNode total_transfers total_nodes
        = (total_transfers : ℚ) / (total_nodes : ℚ)) ∧
    (0 < simulation_end_time →
      transfersPerYear total_transfers (simTimeYears simulation_end_time)
        = (total_transfers : ℚ) / simTimeYears simulation_end_time) := by
  refine ⟨by norm_num [simTimeYears], ?_, ?_, ?_, ?_⟩
  · intro h
    simp [avgTransfersPerNode, h]
  · intro h
    simp [transfersPerYear, simTimeYears, h]
  · intro h
    simp [avgTransfersPerNode, h]
  · intro h
    have hy : 0 < simTimeYears simulation_end_time := by
      rw [simTimeYears]
      positivity
    simp [transfersPerYear, hy]

theorem derived_scalars_spec_witness :
    avgTransfersPerNode 6 0 = 0 ∧
    transfersPerYear 6 (simTimeYears 0) = 0 ∧
    avgTransfersPerNode 6 3 = (6 : ℚ) / (3 : ℚ) ∧
    transfersPerYear 6 (simTimeYears 31557600) = (6 : ℚ) / simTimeYears 31557600 :=
  ⟨(derived_scalars_spec 6 0 0).2.1 rfl,
   (derived_scalars_spec 6 0 0).2.2.1 rfl,
   (derived_scalars_spec 6 3 0).2.2.2.1 (by norm_num),
   (derived_scalars_spec 6 3 31557600).2.2.2.2 (by norm_num)⟩

/-! ### C5: deterministic stride down-sampling -/

theorem everyKthAux_getElem? {α : Type} (k : ℕ) (hk : 1 ≤ k) :
    ∀ (i : ℕ) (l : List α) (n : ℕ), (everyKthAux k l n)[i]? = l[n + i * k]? := by
  intro i
  induction i with
  | zero =>
    intro l
    induction l with
    | nil => intro n; simp [everyKthAux]
    | cons x rest ihl =>
      intro n
      cases n with
      | zero => simp [everyKthAux]
      | succ m =>
        simp only [everyKthAux, ihl m]
        have : m + 1 + 0 * k = (m + 0 * k) + 1 := by omega
        rw [this, List.getElem?_cons_succ]
  | succ i ih =>
    intro l
    induction l with
    | nil => intro n; simp [everyKthAux]
    | cons x rest ihl =>
      intro n
      cases n with
      | zero =>
        simp only [everyKthAux, List.getElem?_cons_succ, ih rest (k - 1)]
        have : 0 + (i + 1) * k = (k - 1 + i * k) + 1 := by
          have := hk
          cases k with
          | zero => omega
          | succ k' => ring_nf; omega
        rw [this, List.getElem?_cons_succ]
      | succ m =>
        simp only [everyKthAux, ihl m]
        have : m + 1 + (i + 1) * k = (m + (i + 1) * k) + 1 := by omega
        rw [this, List.getElem?_cons_succ]

theorem everyKth_getElem? {α : Type} (l : List α) (k : ℕ) (hk : 1 ≤ k) (i : ℕ) :
    (everyKth l k)[i]? = l[i * k]? := by
  have h := everyKthAux_getElem? k hk i l 0
  simpa [everyKth] using h

/-- C5: for a series of length `L` down-sampled to a target count `T`, the
stride is `k = max(1, L // T)` and the result is exactly the every-`k`-th
selection: its `i`-th element is the `(i*k)`-th element of the input (and it
ends where the input runs out).  The selection is a pure function of the
input, hence deterministic. -/
theorem downsampling_spec (l : List ℚ) (T i : ℕ) :
    sample_step l.length T = max 1 (l.length / T) ∧
    (everyKth l (sample_step l.length T))[i]? = l[i * sample_step l.length T]? := by
  exact ⟨rfl, everyKth_getElem? l _ (le_max_left 1 _) i⟩

/-! ### C3: the cumulative series of panel 1 -/

theorem panel1Of_core (is_parallel : Bool) (transfers : List Transfer) (raw : Npz)
    (p : Panel1Data) (hne : transfers.isEmpty = false)
    (hp : panel1Of is_parallel transfers raw = some (some p)) :
    p.times = transfers.map (fun t => t.time / (24 * 3600)) ∧
    p.cumulative = List.range' 1 transfers.length := by
  unfold panel1Of at hp
  rw [hne] at hp
  simp only [Bool.false_eq_true, if_false] at hp
  cases hov : overlayOf is_parallel raw with
  | none => rw [hov] at hp; simp at hp
  | some ov =>
    rw [hov] at hp
    simp only [List.length_map, Option.some.injEq] at hp
    rw [← hp]
    exact ⟨rfl, rfl⟩

/-- C3: for a record with `N` transfer completions at distinct ascending
times, panel 1's series pairs the completion times converted to days
(`seconds / 86400`) with the running count `1..N`, in stored order and
without re-sorting — the `i`-th point is `(times[i] / 86400, i + 1)` — and is
independent of the transfer types, uploaders and downloaders. -/
theorem cumulative_series_spec (is_parallel : Bool) (transfers : List Transfer) (raw : Npz)
    (p : Panel1Data)
    (hasc : List.Chain' (· < ·) (transfers.map Transfer.time))
    (hne : transfers ≠ [])
    (hp : panel1Of is_parallel transfers raw = some (some p)) :
    p.cumulative = List.range' 1 transfers.length ∧
    (∀ i, i < transfers.length → p.cumulative[i]? = some (i + 1)) ∧
    p.times = transfers.map (fun t => t.time / (24 * 3600)) ∧
    (∀ i (hi : i < transfers.length),
      p.times[i]? = some ((transfers.get ⟨i, hi⟩).time / (24 * 3600))) := by
  have hne' : transfers.isEmpty = false := by
    cases transfers with
    | nil => exact absurd rfl hne
    | cons t ts => rfl
  obtain ⟨htimes, hcum⟩ := panel1Of_core is_parallel transfers raw p hne' hp
  refine ⟨hcum, ?_, htimes, ?_⟩
  · intro i hi
    rw [hcum, List.getElem?_range' 1 1 hi]
    congr 1
    omega
  · intro i hi
    rw [htimes, List.getElem?_map]
    rw [List.getElem?_eq_getElem hi]
    simp
/-! ### C2: absence of optional transfer series -/

/-- C7: when `"run"` does not exist but `"run.npz"` does, the loader's first
attempt (the literal name) fails with not-found, the name does not end in
`".npz"`, so it retries with the extension appended and yields exactly the
outcome of loading `"run.npz"` directly; in particular a well-formed container
loads to the same record either way. -/
theorem extension_inference_spec (fs : FileSystem) (d : Npz) (r : Record)
    (h1 : fs "run" = none) (h2 : fs "run.npz" = some d) :
    load_metrics fs "run" = load_metrics fs "run.npz" ∧
    (process_data d = some r → load_metrics fs "run" = Except.ok r) := by
  have hext : strEndsWith "run" ".npz" = false := by decide
  have happ : ("run" ++ ".npz" : String) = "run.npz" := rfl
  have hleft : load_metrics fs "run" =
      (match process_data d with
       | some r => Except.ok r
       | none => Except.error LoadErr.unexpected) := by
    unfold load_metrics
    rw [h1, hext]
    simp only [Bool.false_eq_true, if_false, happ, h2]
  have hright : load_metrics fs "run.npz" =
      (match process_data d with
       | some r => Except.ok r
       | none => Except.error LoadErr.unexpected) := by
    unfold load_metrics
    rw [h2]
  refine ⟨hleft.trans hright.symm, fun hp => ?_⟩
  rw [hleft, hp]

theorem extension_inference_spec_witness :
    load_metrics (fun n => if n = "run.npz" then some {} else none) "run" =
      load_metrics (fun n => if n = "run.npz" then some {} else none) "run.npz" :=
  (extension_inference_spec (fun n => if n = "run.npz" then some {} else none) {}
    ⟨⟨false, 0, 0, 0, 0⟩, [], {}⟩ (by decide) (by decide)).1

/-! ### C8: not-found termination -/

/-- C8: when neither the literal filename nor its `".npz"`-appended variant
exists, the loader reports the not-found condition and the invocation
terminates with exit status 1 producing no output image. -/
theorem not_found_spec (fs : FileSystem) (filename plot_name : String)
    (h1 : fs filename = none) (h2 : fs (filename ++ ".npz") = none) :
    load_metrics fs filename = Except.error LoadErr.notFound ∧
    mainRun fs filename plot_name = (1, none) := by
  have hload : load_metrics fs filename = Except.error LoadErr.notFound := by
    unfold load_metrics
    rw [h1]
    cases he : strEndsWith filename ".npz" with
    | false => simp only [Bool.false_eq_true, if_false, h2]
    | true => simp only [if_true, h1]
  refine ⟨hload, ?_⟩
  unfold mainRun
  rw [hload]

theorem not_found_spec_witness :
    load_metrics (fun _ => none) "missing" = Except.error LoadErr.notFound ∧
    mainRun (fun _ => none) "missing" "plot.png" = (1, none) :=
  not_found_spec (fun _ => none) "missing" "plot.png" rfl rfl
/-! ### C6: bandwidth utilization -/

theorem everyKth_length_le_iff {α : Type} (l : List α) (k : ℕ) (hk : 1 ≤ k) (i : ℕ) :
    (everyKth l k).length ≤ i ↔ l.length ≤ i * k := by
  rw [← List.getElem?_eq_none_iff, everyKth_getElem? l k hk i, List.getElem?_eq_none_iff]

theorem everyKth_length_eq {α β : Type} (l₁ : List α) (l₂ : List β) (k : ℕ) (hk : 1 ≤ k)
    (h : l₁.length = l₂.length) : (everyKth l₁ k).length = (everyKth l₂ k).length := by
  apply le_antisymm
  · rw [everyKth_length_le_iff l₁ k hk, h]
    exact (everyKth_length_le_iff l₂ k hk _).mp le_rfl
  · rw [everyKth_length_le_iff l₂ k hk, ← h]
    exact (everyKth_length_le_iff l₁ k hk _).mp le_rfl

/-- C6: the bandwidth utilization computation.  When the bandwidth series are
present, non-empty, and aligned with `bw_times`, each utilization figure is
`mean(used / max(capacity, 1)) * 100` over the down-sampled window (stride
target 1000); every divisor `max(capacity, 1)` is at least 1, so a
zero-capacity sample never divides by zero; and when `bw_times` is absent both
figures are 0. -/
theorem bandwidth_utilization_spec (raw : Npz) :
    (∀ bt buu buc bdu bdc : List ℚ,
      raw.bw_times = some bt → bt ≠ [] →
      raw.bw_upload_used = some buu → raw.bw_upload_capacity = some buc →
      raw.bw_download_used = some bdu → raw.bw_download_capacity = some bdc →
      buu.length = bt.length → buc.length = bt.length →
      bdu.length = bt.length → bdc.length = bt.length →
      bwStatsOf raw = some
        (npMean (List.zipWith (· / ·) (everyKth buu (sample_step bt.length 1000))
            (npMaximum (everyKth buc (sample_step bt.length 1000)) 1)) * 100,
         npMean (List.zipWith (· / ·) (everyKth bdu (sample_step bt.length 1000))
            (npMaximum (everyKth bdc (sample_step bt.length 1000)) 1)) * 100)) ∧
    (∀ (l : List ℚ) (x : ℚ), x ∈ npMaximum l 1 → 1 ≤ x) ∧
    (raw.bw_times = none → bwStatsOf raw = some (0, 0)) := by
  refine ⟨?_, ?_, ?_⟩
  · intro bt buu buc bdu bdc hbt hne h1 h2 h3 h4 l1 l2 l3 l4
    have hk : 1 ≤ sample_step bt.length 1000 := le_max_left 1 _
    have hpos : bt.length > 0 := List.length_pos.mpr hne
    have hlen : ∀ (a b : List ℚ), a.length = bt.length → b.length = bt.length →
        (everyKth a (sample_step bt.length 1000)).length
          = (npMaximum (everyKth b (sample_step bt.length 1000)) 1).length := by
      intro a b ha hb
      rw [npMaximum, List.length_map]
      exact everyKth_length_eq a b _ hk (ha.trans hb.symm)
    have e1 : npDiv (everyKth buu (sample_step bt.length 1000))
        (npMaximum (everyKth buc (sample_step bt.length 1000)) 1) =
        some (List.zipWith (· / ·) (everyKth buu (sample_step bt.length 1000))
          (npMaximum (everyKth buc (sample_step bt.length 1000)) 1)) := by
      rw [npDiv, if_pos (hlen buu buc l1 l2)]
    have e2 : npDiv (everyKth bdu (sample_step bt.length 1000))
        (npMaximum (everyKth bdc (sample_step bt.length 1000)) 1) =
        some (List.zipWith (· / ·) (everyKth bdu (sample_step bt.length 1000))
          (npMaximum (everyKth bdc (sample_step bt.length 1000)) 1)) := by
      rw [npDiv, if_pos (hlen bdu bdc l3 l4)]
    rw [bwStatsOf, hbt]
    simp only [h1, h2, h3, h4, if_pos hpos, e1, e2]
  · intro l x hx
    rcases List.mem_map.mp hx with ⟨y, _, hy⟩
    rw [← hy]
    exact le_max_right y 1
  · intro hbt
    rw [bwStatsOf, hbt]

theorem bandwidth_utilization_spec_witness :
    bwStatsOf { bw_times := some [0], bw_upload_used := some [5],
                bw_upload_capacity := some [10], bw_download_used := some [1],
                bw_download_capacity := some [0] } = some
      (npMean (List.zipWith (· / ·) (everyKth [5] (sample_step 1 1000))
          (npMaximum (everyKth [10] (sample_step 1 1000)) 1)) * 100,
       npMean (List.zipWith (· / ·) (everyKth [1] (sample_step 1 1000))
          (npMaximum (everyKth [0] (sample_step 1 1000)) 1)) * 100) ∧
    bwStatsOf {} = some (0, 0) :=
  ⟨(bandwidth_utilization_spec
      { bw_times := some [0], bw_upload_used := some [5],
        bw_upload_capacity := some [10], bw_download_used := some [1],
        bw_download_capacity := some [0] }).1 [0] [5] [10] [1] [0]
      rfl (by simp) rfl rfl rfl rfl rfl rfl rfl rfl,
   (bandwidth_utilization_spec {}).2.2 rfl⟩
theorem cumulative_series_spec_witness :
    exPanelC3.cumulative = List.range' 1 exTransfersC3.length ∧
    (∀ i, i < exTransfersC3.length → exPanelC3.cumulative[i]? = some (i + 1)) ∧
    exPanelC3.times = exTransfersC3.map (fun t => t.time / (24 * 3600)) ∧
    (∀ i (hi : i < exTransfersC3.length),
      exPanelC3.times[i]? = some ((exTransfersC3.get ⟨i, hi⟩).time / (24 * 3600))) :=
  cumulative_series_spec false exTransfersC3 {} exPanelC3
    (by norm_num [exTransfersC3, List.chain'_cons]) (by simp [exTransfersC3]) rfl

/-! ### C9: one unified rendering path -/

theorem panel1Of_mode_independent (a b : Bool) (ts : List Transfer) (raw : Npz)
    (p1 p1' : Option Panel1Data)
    (h1 : panel1Of a ts raw = some p1) (h2 : panel1Of b ts raw = some p1') :
    p1'.map (fun p => (p.times, p.cumulative)) = p1.map (fun p => (p.times, p.cumulative)) := by
  unfold panel1Of at h1 h2
  by_cases hemp : ts.isEmpty = true
  · rw [if_pos hemp] at h1 h2
    simp only [Option.some.injEq] at h1 h2
    rw [← h1, ← h2]
  · rw [if_neg hemp] at h1 h2
    cases hov1 : overlayOf a raw with
    | none => rw [hov1] at h1; simp at h1
    | some ov1 =>
      cases hov2 : overlayOf b raw with
      | none => rw [hov2] at h2; simp at h2
      | some ov2 =>
        rw [hov1] at h1
        rw [hov2] at h2
        simp only [Option.some.injEq] at h1 h2
        rw [← h1, ← h2]
        simp

/-- C9: the single-mode and parallel-mode entry points both are exactly the
unified `create_analysis_plot`; and between two records differing only in the
`parallel_enabled` flag, any two successful renders agree on everything except
the super-title mode text, the concurrency overlay (with its title maximum),
and the concurrent statistics line. -/
theorem mode_equivalence_spec :
    (∀ data : Record,
      plot_single_mode_analysis data = create_analysis_plot data ∧
      plot_parallel_mode_analysis data = create_analysis_plot data) ∧
    (∀ (r : Record) (b : Bool) (f g : Figure),
      create_analysis_plot r = some f →
      create_analysis_plot (setParallel r b) = some g →
      modeIndependentView g = modeIndependentView f) := by
  refine ⟨fun data => ⟨rfl, rfl⟩, ?_⟩
  intro r b f g hf hg
  simp only [create_analysis_plot, setParallel] at hf hg
  cases hp1 : panel1Of r.metadata.parallel_enabled r.transfer_completions r.raw_data with
  | none => rw [hp1] at hf; simp at hf
  | some p1 =>
    cases hbw : bwStatsOf r.raw_data with
    | none => rw [hp1, hbw] at hf; simp at hf
    | some bw =>
      cases hcs : concurrentStatsOf r.metadata.parallel_enabled r.raw_data with
      | none => rw [hp1, hbw, hcs] at hf; simp at hf
      | some cs =>
        rw [hp1, hbw, hcs] at hf
        cases hp1' : panel1Of b r.transfer_completions r.raw_data with
        | none => rw [hp1'] at hg; simp at hg
        | some p1' =>
          cases hcs' : concurrentStatsOf b r.raw_data with
          | none => rw [hp1', hbw, hcs'] at hg; simp at hg
          | some cs' =>
            rw [hp1', hbw, hcs'] at hg
            simp only [Option.some.injEq] at hf hg
            rw [← hf, ← hg]
            simp only [modeIndependentView]
            rw [panel1Of_mode_independent r.metadata.parallel_enabled b
              r.transfer_completions r.raw_data p1 p1' hp1 hp1']

theorem mode_equivalence_spec_witness :
    plot_single_mode_analysis ⟨⟨false, 0, 0, 0, 0⟩, [], {}⟩ =
      create_analysis_plot ⟨⟨false, 0, 0, 0, 0⟩, [], {}⟩ ∧
    modeIndependentView ⟨"Parallel", simTimeYears 0, none, [], [], [], 0, 0,
        avgTransfersPerNode 0 0, transfersPerYear 0 (simTimeYears 0), 0, none, 0, 0⟩ =
      modeIndependentView ⟨"Single", simTimeYears 0, none, [], [], [], 0, 0,
        avgTransfersPerNode 0 0, transfersPerYear 0 (simTimeYears 0), 0, none, 0, 0⟩ :=
  ⟨(mode_equivalence_spec.1 ⟨⟨false, 0, 0, 0, 0⟩, [], {}⟩).1,
   mode_equivalence_spec.2 ⟨⟨false, 0, 0, 0, 0⟩, [], {}⟩ true
     ⟨"Single", simTimeYears 0, none, [], [], [], 0, 0,
       avgTransfersPerNode 0 0, transfersPerYear 0 (simTimeYears 0), 0, none, 0, 0⟩
     ⟨"Parallel", simTimeYears 0, none, [], [], [], 0, 0,
       avgTransfersPerNode 0 0, transfersPerYear 0 (simTimeYears 0), 0, none, 0, 0⟩
     rfl rfl⟩

end AnalyzeTransfers

